import Mathlib

/-!
Verification of the reconciliation & cache-consistency engine of the Avito
webhook server (src/server.js).  The JavaScript is shallow-embedded: pure
pieces become Lean functions, the mutable server state (summary index,
webhook-seen map, chat cache, sync status) is threaded explicitly, remote
HTTP results are oracles (`Nat → Option _`, `String → Option _`), and JS
falsiness of possibly-absent fields is modelled with `Option`.
-/

namespace AvitoWebhook

/-- A message record from the messenger messages API (`data.messages` items).
Fields that JS reads defensively (`m.created || 0`, `String(m.author_id)`,
`m.content && m.content.text`) are `Option`s. -/
structure Message where
  id : String
  created : Option Nat
  author_id : Option String
  type : Option String
  text : Option String
deriving DecidableEq, Repr

/-- `(m.created || 0)` as used by the TXT sort comparator in `saveChatMessages`. -/
def msgCreated (m : Message) : Nat := m.created.getD 0

/-- The comparator `(a, b) => (a.created || 0) - (b.created || 0)` of the
`[...messages].sort(...)` call, as a boolean "less or equal". -/
def msgLe (a b : Message) : Bool := msgCreated a ≤ msgCreated b

/-- The on-disk JSON blob written per chat:
`{ chat_id, messages, cached_at }` (cached_at modelled as a numeric clock). -/
structure CachedChat where
  chat_id : String
  messages : List Message
  cached_at : Nat
deriving DecidableEq, Repr

/-- The chats directory: `{safe}.json` files and `chat_{safe}.txt` transcripts,
both keyed by the filesystem-safe encoding of the chat id.  For the TXT file we
record the ordered message sequence it renders (line formatting is
display-only). -/
structure Cache where
  json : String → Option CachedChat
  txt : String → Option (List Message)

/-- `safeName` from server.js: `chatId.replace(/\//g, '%2F')` — every `/`
character is replaced by the three characters `%2F`.  Char-list form. -/
def safeNameL : List Char → List Char
  | [] => []
  | c :: cs => (if c = '/' then ['%', '2', 'F'] else [c]) ++ safeNameL cs

/-- `safeName` on strings. -/
def safeName (chatId : String) : String := ⟨safeNameL chatId.data⟩

/-- Modelled from the spec: the decoding direction of the filesystem-safe id
encoding ("decoding the encoded form recovers the original id") has no
implementation in src/server.js — the read path re-encodes with `safeName`
instead of ever decoding.  The natural inverse replaces each occurrence of
`%2F` back with `/` (leftmost-first). -/
def decodeNameL : List Char → List Char
  | [] => []
  | [c] => [c]
  | [c, d] => [c, d]
  | c :: d :: e :: cs =>
    if c = '%' ∧ d = '2' ∧ e = 'F' then '/' :: decodeNameL cs
    else c :: decodeNameL (d :: e :: cs)

/-- Decoding on strings. -/
def decodeName (s : String) : String := ⟨decodeNameL s.data⟩

/-- Whether a char list contains the escape sequence `%2F` as a substring. -/
def containsEnc : List Char → Bool
  | [] => false
  | [_] => false
  | [_, _] => false
  | c :: d :: e :: cs => (c = '%' && d = '2' && e = 'F') || containsEnc (d :: e :: cs)

/-- The `messages` API response for one chat (`data` in `updateChatCache`).
`messages := none` models an absent / falsy `data.messages` field. -/
structure MessagesResponse where
  messages : Option (List Message)
deriving DecidableEq, Repr

/-- `saveChatMessages(chatId, messages)` from server.js.  An empty (or missing)
message list returns without writing.  Otherwise the JSON blob stores the
messages exactly as passed (write order), while the TXT transcript renders
`[...messages].sort((a, b) => (a.created || 0) - (b.created || 0))` —
a stable ascending sort, modelled with `List.mergeSort`. -/
def saveChatMessages (chatId : String) (messages : List Message) (now : Nat)
    (cache : Cache) : Cache :=
  if messages.length = 0 then cache
  else
    let safe := safeName chatId
    { json := fun k => if k = safe then some ⟨chatId, messages, now⟩ else cache.json k
      txt := fun k => if k = safe then some (messages.mergeSort msgLe) else cache.txt k }

/-- `updateChatCache(chatId)` from server.js — the single-conversation
refresh.  `remote` is the oracle for
`GET /messenger/v3/.../chats/{chatId}/messages/?limit=50&offset=0`
(`none` = transport error or unparsable body, i.e. `avitoApi` returned null).
Returns the JS boolean result together with the possibly-updated cache. -/
def updateChatCache (remote : String → Option MessagesResponse) (chatId : String)
    (now : Nat) (cache : Cache) : Bool × Cache :=
  match remote chatId with
  | none => (false, cache)
  | some data =>
    match data.messages with
    | none => (false, cache)
    | some msgs => (true, saveChatMessages chatId msgs now cache)

/-- Whether `updateChatCache` reports success for `chatId`
(`!data || !data.messages` fails; a present `messages` array succeeds,
empty or not). -/
def refreshOkFor (remote : String → Option MessagesResponse) (chatId : String) : Bool :=
  match remote chatId with
  | none => false
  | some data => data.messages.isSome

/-- The read path of `GET /api/chats/{chatId}/messages`: look up the JSON blob
under the re-encoded chat id (404 ↦ `none`). -/
def readCachedChat (chatId : String) (cache : Cache) : Option CachedChat :=
  cache.json (safeName chatId)

/-- `chat.last_message` as listed by the conversations API.  `text` models
`last_message.content && last_message.content.text`. -/
structure LastMessage where
  id : String
  created : Nat
  author_id : String
  text : Option String
deriving DecidableEq, Repr

/-- An element of `chat.users`. -/
structure ChatUser where
  id : String
  name : String
deriving DecidableEq, Repr

/-- `chat.context.value` when present. -/
structure CtxValue where
  title : String
  price_string : String
  url : String
deriving DecidableEq, Repr

/-- One element of the paginated chats listing.  `last_message := none` models
`chat.last_message` absent (the `(chat.last_message || {})` fallback),
`context := none` models `!(chat.context && chat.context.value)`. -/
structure ListedChat where
  id : String
  last_message : Option LastMessage
  users : List ChatUser
  context : Option CtxValue
deriving DecidableEq, Repr

/-- The freshly observed last-message id of a listed chat:
`(chat.last_message || {}).id || ''`. -/
def lastMsgIdOf (chat : ListedChat) : String :=
  (chat.last_message.map (·.id)).getD ""

/-- One entry of the summary index (`newIndex[chat.id] = {...}` in
`periodicSync`). -/
structure ChatSummary where
  updated : Nat
  lastMsgId : String
  lastDir : String
  lastText : String
  users : List String
  item : String
  price : String
  itemUrl : String
deriving DecidableEq, Repr

/-- Build one summary entry from a listed chat, exactly as the
`newIndex[chat.id] = { ... }` literal in `periodicSync` (`uid` is
`AVITO_USER_ID`; `.filter(Boolean)` on names drops empty strings). -/
def buildSummary (uid : String) (chat : ListedChat) : ChatSummary :=
  { updated := (chat.last_message.map (·.created)).getD 0
    lastMsgId := lastMsgIdOf chat
    lastDir :=
      match chat.last_message with
      | some m => if m.author_id = uid then "out" else "in"
      | none => "in"
    lastText := ((chat.last_message.bind (·.text)).getD "").take 100
    users := ((chat.users.filter (fun u => u.id != uid)).map (·.name)).filter
      (fun n => n != "")
    item := (chat.context.map (·.title)).getD ""
    price := (chat.context.map (·.price_string)).getD ""
    itemUrl := (chat.context.map (·.url)).getD "" }

/-- The summary index, a JS object keyed by chat id. -/
def Index : Type := String → Option ChatSummary

/-- `newIndex[chat.id] = buildSummary uid chat` — object assignment. -/
def insertSummary (uid : String) (idx : Index) (chat : ListedChat) : Index :=
  fun k => if k = chat.id then some (buildSummary uid chat) else idx k

/-- The `for (const chat of allChats) newIndex[chat.id] = {...}` loop,
starting from the empty object. -/
def buildIndex (uid : String) (chats : List ListedChat) : Index :=
  chats.foldl (insertSummary uid) (fun _ => none)

/-- Staleness test of `periodicSync`: dirty iff
`!prev || prev.lastMsgId !== lastMsgId`. -/
def isDirty (prevIndex : Index) (chat : ListedChat) : Bool :=
  match prevIndex chat.id with
  | none => true
  | some prev => prev.lastMsgId != lastMsgIdOf chat

/-- A remote API call issued during a sweep, for the call trace. -/
inductive RemoteCall where
  | listChats (offset : Nat)
  | getMessages (chatId : String)
deriving DecidableEq, Repr

/-- The pagination loop
`for (let offset = 0; offset <= 1000; offset += 100)` of `periodicSync`.
`pages` is the oracle for the listing request at page `offset / 100`
(`none` = fetch failure or body without a `chats` array).  Accumulates the
fetched chats and the trace of listing calls; a failed page, an empty page or
a short page ends the pagination. -/
def fetchLoop (pages : Nat → Option (List ListedChat)) :
    Nat → Nat → List ListedChat × List RemoteCall
  | _, 0 => ([], [])
  | pageIdx, fuel + 1 =>
    match pages pageIdx with
    | none => ([], [RemoteCall.listChats (pageIdx * 100)])
    | some chats =>
      if chats.length = 0 then ([], [RemoteCall.listChats (pageIdx * 100)])
      else if chats.length < 100 then (chats, [RemoteCall.listChats (pageIdx * 100)])
      else
        let rest := fetchLoop pages (pageIdx + 1) fuel
        (chats ++ rest.1, RemoteCall.listChats (pageIdx * 100) :: rest.2)

/-- The whole listing phase: offsets 0, 100, …, 1000 — eleven pages at most. -/
def fetchAllChats (pages : Nat → Option (List ListedChat)) :
    List ListedChat × List RemoteCall :=
  fetchLoop pages 0 11

/-- The concatenation, in listing order, of pages `i, i+1, …, i+k-1` of a
paginated listing `ls` — the chats a sweep has fetched when the fetch of page
`i+k` fails. -/
def collectFrom (ls : Nat → List ListedChat) : Nat → Nat → List ListedChat
  | _, 0 => []
  | i, k + 1 => ls i ++ collectFrom ls (i + 1) k

/-- The listing-call trace of a pagination that issues the calls for pages
`i, …, i+k` and stops with the call for page `i+k` (the failing one). -/
def traceFrom : Nat → Nat → List RemoteCall
  | i, 0 => [RemoteCall.listChats (i * 100)]
  | i, k + 1 => RemoteCall.listChats (i * 100) :: traceFrom (i + 1) k

/-- Accumulated result of the per-chat refresh loop of `periodicSync`. -/
structure SweepAcc where
  checked : Nat
  updated : Nat
  errors : Nat
  calls : List RemoteCall
  cache : Cache

/-- The `for (const chat of allChats)` refresh loop of `periodicSync`:
`checked++` for every chat; a dirty chat gets one `updateChatCache` call whose
boolean result feeds `updated` / `errors`; the cache is threaded through the
refresh calls in listing order. -/
def refreshLoop (prevIndex : Index) (remote : String → Option MessagesResponse)
    (now : Nat) : List ListedChat → Cache → SweepAcc
  | [], cache => ⟨0, 0, 0, [], cache⟩
  | chat :: rest, cache =>
    if isDirty prevIndex chat then
      let result := updateChatCache remote chat.id now cache
      let acc := refreshLoop prevIndex remote now rest result.2
      { checked := acc.checked + 1
        updated := if result.1 then acc.updated + 1 else acc.updated
        errors := if result.1 then acc.errors else acc.errors + 1
        calls := RemoteCall.getMessages chat.id :: acc.calls
        cache := acc.cache }
    else
      let acc := refreshLoop prevIndex remote now rest cache
      { acc with checked := acc.checked + 1 }

/-- The persisted `syncState` record (the wall-clock fields `lastSync` and
`lastDuration` are timing, outside the embedding). -/
structure SweepReport where
  chatsChecked : Nat
  chatsUpdated : Nat
  chatsMissed : Nat
  isRunning : Bool
  errors : Nat
deriving DecidableEq, Repr

/-- The webhook-seen marker: `webhookSeen[chatId] = { lastMsgId, at }`
(`at` is `Date.now()`, modelled as a numeric clock). -/
structure SeenMark where
  lastMsgId : String
  seenAt : Nat
deriving DecidableEq, Repr

/-- The whole mutable server state: `chatIndex`, `webhookSeen`, the chats
directory, and `syncState`. -/
structure ServerState where
  chatIndex : Index
  webhookSeen : String → Option SeenMark
  cache : Cache
  sync : SweepReport

/-- Result of one `periodicSync()` invocation: the state afterwards, the
sweep report (`none` for the single-flight early return while a sweep is
already running), and the ordered trace of remote calls issued. -/
structure SweepResult where
  state : ServerState
  report : Option SweepReport
  trace : List RemoteCall

/-- `periodicSync()` from server.js.  Early-returns while a sweep is running;
otherwise: paginate the listing, build the fresh index, walk the listing
refreshing dirty chats against the previous `chatIndex`, then replace
`chatIndex` wholesale with the freshly built index and record the report.
Nothing in the body throws (`avitoApi` and `updateChatCache` catch
internally), so the `catch` arm of the JS is unreachable here. -/
def periodicSync (pages : Nat → Option (List ListedChat))
    (remote : String → Option MessagesResponse) (uid : String) (now : Nat)
    (s : ServerState) : SweepResult :=
  if s.sync.isRunning then ⟨s, none, []⟩
  else
    let fetched := fetchAllChats pages
    let newIndex := buildIndex uid fetched.1
    let acc := refreshLoop s.chatIndex remote now fetched.1 s.cache
    let report : SweepReport :=
      { chatsChecked := acc.checked, chatsUpdated := acc.updated
        chatsMissed := 0, isRunning := false, errors := acc.errors }
    ⟨{ s with chatIndex := newIndex, cache := acc.cache, sync := report },
      some report, fetched.2 ++ acc.calls⟩

/-- `payload.payload.value` of a parsed webhook body: the fields the handler
reads.  `chat_id := some ""` is falsy in the `if (chatId)` guard. -/
structure WebhookValue where
  chat_id : Option String
  id : Option String
deriving DecidableEq, Repr

/-- Observable actions of the webhook endpoint, in program order. -/
inductive WebhookEvent where
  | respond (status : Nat) (ok : Bool)
  | markSeen (chatId : String) (msgId : String)
  | triggerRefresh (chatId : String)
deriving DecidableEq, Repr

/-- The truthy chat id of a webhook payload, if any: `none` when the JSON was
malformed, the payload had no `payload.value.chat_id`, or the id was the empty
string. -/
def chatIdTruthy : Option WebhookValue → Option String
  | none => none
  | some v =>
    match v.chat_id with
    | none => none
    | some s => if s = "" then none else some s

/-- The `POST /webhook` handler.  `parsed := none` models a body on which
`JSON.parse` throws.  The 200 acknowledgment is sent first, before any of the
payload is examined; a truthy chat id updates `webhookSeen` and fires the
asynchronous `updateChatCache` (recorded as a trigger event — fire-and-forget,
its cache write happens outside this handler). -/
def handleWebhook (parsed : Option WebhookValue) (now : Nat) (s : ServerState) :
    ServerState × List WebhookEvent :=
  let ack := WebhookEvent.respond 200 true
  match parsed with
  | none => (s, [ack])
  | some v =>
    match v.chat_id with
    | none => (s, [ack])
    | some cid =>
      if cid = "" then (s, [ack])
      else
        let msgId := v.id.getD ""
        ({ s with webhookSeen :=
            fun k => if k = cid then some ⟨msgId, now⟩ else s.webhookSeen k },
          [ack, WebhookEvent.markSeen cid msgId, WebhookEvent.triggerRefresh cid])

/-- Ascending-by-`created` check on a message sequence (the order the spec
claims for stored messages). -/
def isAscendingByCreated : List Message → Bool
  | [] => true
  | [_] => true
  | a :: b :: rest => msgLe a b && isAscendingByCreated (b :: rest)

/-! ### Concrete instances used by witnesses and counterexamples -/

/-- An empty chats directory. -/
def cacheEmpty : Cache := ⟨fun _ => none, fun _ => none⟩

/-- A message with the earlier timestamp. -/
def msgA : Message := ⟨"m-old", some 3, some "u9", some "text", some "hi"⟩

/-- A message with the later timestamp. -/
def msgB : Message := ⟨"m-new", some 5, some "u9", some "text", some "yo"⟩

/-- A listed conversation whose last message has id `"mW"`. -/
def chatW : ListedChat := ⟨"cW", some ⟨"mW", 4, "u9", some "hey"⟩, [⟨"u7", "Ivan"⟩], none⟩

/-- A one-page listing containing only `chatW`. -/
def pagesW : Nat → Option (List ListedChat) :=
  fun i => if i = 0 then some [chatW] else none

/-- Idle server state with an empty index (every listed chat is dirty). -/
def stateW : ServerState :=
  ⟨fun _ => none, fun _ => none, cacheEmpty, ⟨0, 0, 0, false, 0⟩⟩

/-- Idle server state whose index already holds the fresh summary of `chatW`. -/
def stateW2 : ServerState :=
  ⟨fun k => if k = "cW" then some (buildSummary "204620380" chatW) else none,
    fun _ => none, cacheEmpty, ⟨0, 0, 0, false, 0⟩⟩

/-- Server state with a sweep marked in flight (`isRunning = true`). -/
def stateR : ServerState :=
  ⟨fun _ => none, fun _ => none, cacheEmpty, ⟨0, 0, 0, true, 0⟩⟩

/-- A listed conversation used in the full-page listing scenario. -/
def chatC6 : ListedChat := ⟨"cB", some ⟨"m1", 10, "u9", some "hello"⟩, [], none⟩

/-- A listing whose first page is full (100 chats) and whose second page
fails. -/
def pagesC6 : Nat → Option (List ListedChat) :=
  fun i => if i = 0 then some (List.replicate 100 chatC6) else none

/-- Idle state whose index already matches `chatC6` (nothing is dirty). -/
def stateC6 : ServerState :=
  ⟨fun k => if k = "cB" then some (buildSummary "204620380" chatC6) else none,
    fun _ => none, cacheEmpty, ⟨0, 0, 0, false, 0⟩⟩

/-! ### Lemmas about the filesystem-safe id encoding -/

theorem safeNameL_no_slash (l : List Char) : '/' ∉ safeNameL l := by
  induction l with
  | nil => simp [safeNameL]
  | cons c cs ih =>
    intro h
    simp only [safeNameL] at h
    by_cases hc : c = '/'
    · rw [if_pos hc] at h
      rcases List.mem_append.mp h with h1 | h2
      · exact absurd h1 (by decide)
      · exact ih h2
    · rw [if_neg hc] at h
      rcases List.mem_append.mp h with h1 | h2
      · rw [List.mem_singleton] at h1
        exact hc h1.symm
      · exact ih h2

theorem safeNameL_id_of_no_slash {l : List Char} (h : '/' ∉ l) : safeNameL l = l := by
  induction l with
  | nil => rfl
  | cons c cs ih =>
    have hc : ¬c = '/' := fun e => h (e ▸ List.mem_cons_self c cs)
    simp only [safeNameL, if_neg hc, List.singleton_append, List.cons.injEq, true_and]
    exact ih fun m => h (List.mem_cons_of_mem _ m)

theorem safeNameL_idem (l : List Char) : safeNameL (safeNameL l) = safeNameL l :=
  safeNameL_id_of_no_slash (safeNameL_no_slash l)

theorem safeNameL_cons_ne {c : Char} (cs : List Char) (hc : ¬c = '/') :
    safeNameL (c :: cs) = c :: safeNameL cs := by
  simp only [safeNameL, if_neg hc, List.singleton_append]

theorem safeNameL_slash_eq (cs : List Char) {c : Char} (hc : c = '/') :
    safeNameL (c :: cs) = '%' :: '2' :: 'F' :: safeNameL cs := by
  simp only [safeNameL, if_pos hc, List.cons_append, List.nil_append]

theorem containsEnc_tail {c : Char} {cs : List Char}
    (h : containsEnc (c :: cs) = false) : containsEnc cs = false := by
  match cs with
  | [] => rfl
  | [_] => rfl
  | d :: e :: t =>
    simp only [containsEnc, Bool.or_eq_false_iff] at h
    exact h.2

theorem safeNameL_head {cs : List Char} {d : Char} {rest : List Char}
    (h : safeNameL cs = d :: rest) (hd : ¬d = '%') :
    ∃ cs', cs = d :: cs' ∧ safeNameL cs' = rest := by
  match cs with
  | [] => simp [safeNameL] at h
  | c :: cs' =>
    by_cases hc : c = '/'
    · rw [safeNameL_slash_eq cs' hc] at h
      injection h with h1 _
      exact absurd h1.symm hd
    · rw [safeNameL_cons_ne cs' hc] at h
      injection h with h1 h2
      exact ⟨cs', by rw [h1], h2⟩

theorem decodeNameL_cons {c : Char} {rest : List Char}
    (h : ¬(c = '%' ∧ rest.take 2 = ['2', 'F'])) :
    decodeNameL (c :: rest) = c :: decodeNameL rest := by
  match rest with
  | [] => rfl
  | [d] => rfl
  | d :: e :: t =>
    have h' : ¬(c = '%' ∧ d = '2' ∧ e = 'F') := by
      rintro ⟨h1, h2, h3⟩
      exact h ⟨h1, by rw [h2, h3]; rfl⟩
    simp only [decodeNameL, if_neg h']

theorem decode_safeNameL {l : List Char} (h : containsEnc l = false) :
    decodeNameL (safeNameL l) = l := by
  induction l with
  | nil => rfl
  | cons c cs ih =>
    have hcs : containsEnc cs = false := containsEnc_tail h
    by_cases hc : c = '/'
    · rw [safeNameL_slash_eq cs hc, decodeNameL, if_pos ⟨rfl, rfl, rfl⟩, ih hcs, hc]
    · rw [safeNameL_cons_ne cs hc]
      by_cases hx : c = '%' ∧ (safeNameL cs).take 2 = ['2', 'F']
      · exfalso
        obtain ⟨hep, htake⟩ := hx
        obtain ⟨t, ht⟩ : ∃ t, safeNameL cs = '2' :: 'F' :: t := by
          cases hsc : safeNameL cs with
          | nil => rw [hsc] at htake; simp at htake
          | cons a as =>
            cases as with
            | nil =>
              rw [hsc] at htake
              simp only [List.take, List.cons.injEq] at htake
              exact absurd htake.2 (by simp)
            | cons b bs =>
              rw [hsc] at htake
              simp only [List.take, List.take_zero, List.cons.injEq, and_true] at htake
              exact ⟨bs, by rw [htake.1, htake.2]⟩
        obtain ⟨cs₁, hcs₁, hrest₁⟩ := safeNameL_head ht (by decide)
        obtain ⟨cs₂, hcs₂, _⟩ := safeNameL_head hrest₁ (by decide)
        rw [hep] at h
        rw [hcs₁, hcs₂] at h
        simp [containsEnc] at h
      · rw [decodeNameL_cons hx, ih hcs]

theorem safeName_idem_str (s : String) : safeName (safeName s) = safeName s :=
  congrArg String.mk (safeNameL_idem s.data)

theorem decodeName_safeName {s : String} (h : containsEnc s.data = false) :
    decodeName (safeName s) = s := by
  cases s with
  | mk data => exact congrArg String.mk (decode_safeNameL h)

theorem safeName_inj_of_no_enc {a b : String} (ha : containsEnc a.data = false)
    (hb : containsEnc b.data = false) (h : safeName a = safeName b) : a = b := by
  rw [← decodeName_safeName ha, ← decodeName_safeName hb, h]

/-! ### Lemmas about the sweep machinery -/

theorem updateChatCache_fst (remote : String → Option MessagesResponse)
    (chatId : String) (now : Nat) (cache : Cache) :
    (updateChatCache remote chatId now cache).1 = refreshOkFor remote chatId := by
  unfold updateChatCache refreshOkFor
  cases remote chatId with
  | none => rfl
  | some d =>
    cases hm : d.messages with
    | none => simp [hm]
    | some m => simp [hm]

theorem foldl_insertSummary_not_mem {uid k : String} {chats : List ListedChat}
    (h : k ∉ chats.map (·.id)) (idx : Index) :
    chats.foldl (insertSummary uid) idx k = idx k := by
  induction chats generalizing idx with
  | nil => rfl
  | cons c rest ih =>
    simp only [List.map_cons, List.mem_cons, not_or] at h
    rw [List.foldl_cons, ih h.2]
    simp [insertSummary, h.1]

theorem buildIndex_not_mem {uid k : String} {chats : List ListedChat}
    (h : k ∉ chats.map (·.id)) : buildIndex uid chats k = none :=
  foldl_insertSummary_not_mem h _

theorem foldl_insertSummary_mem {uid : String} {chats : List ListedChat}
    (hnd : (chats.map (·.id)).Nodup) {chat : ListedChat} (hmem : chat ∈ chats)
    (idx : Index) :
    chats.foldl (insertSummary uid) idx chat.id = some (buildSummary uid chat) := by
  induction chats generalizing idx with
  | nil => cases hmem
  | cons c rest ih =>
    simp only [List.map_cons, List.nodup_cons] at hnd
    rw [List.foldl_cons]
    rcases List.mem_cons.mp hmem with rfl | hmem'
    · rw [foldl_insertSummary_not_mem hnd.1]
      simp [insertSummary]
    · exact ih hnd.2 hmem' _

theorem buildIndex_mem_nodup {uid : String} {chats : List ListedChat}
    (hnd : (chats.map (·.id)).Nodup) {chat : ListedChat} (hmem : chat ∈ chats) :
    buildIndex uid chats chat.id = some (buildSummary uid chat) :=
  foldl_insertSummary_mem hnd hmem _

theorem fetchLoop_count_getMessages (pages : Nat → Option (List ListedChat))
    (x : String) :
    ∀ fuel pageIdx,
      ((fetchLoop pages pageIdx fuel).2.count (RemoteCall.getMessages x)) = 0 := by
  intro fuel
  induction fuel with
  | zero => intro pageIdx; rfl
  | succ n ih =>
    intro pageIdx
    rw [fetchLoop]
    cases hp : pages pageIdx with
    | none => simp
    | some chats =>
      by_cases h0 : chats.length = 0
      · simp [h0]
      · by_cases h100 : chats.length < 100
        · simp [h0, h100]
        · simp [h0, h100, ih]

theorem refreshLoop_spec (prev : Index) (remote : String → Option MessagesResponse)
    (now : Nat) :
    ∀ (chats : List ListedChat) (cache : Cache),
      (refreshLoop prev remote now chats cache).checked = chats.length
      ∧ (refreshLoop prev remote now chats cache).updated =
          (chats.filter fun c => isDirty prev c && refreshOkFor remote c.id).length
      ∧ (refreshLoop prev remote now chats cache).errors =
          (chats.filter fun c => isDirty prev c && !refreshOkFor remote c.id).length
      ∧ (refreshLoop prev remote now chats cache).calls =
          (chats.filter (isDirty prev)).map fun c => RemoteCall.getMessages c.id := by
  intro chats
  induction chats with
  | nil => exact fun cache => ⟨rfl, rfl, rfl, rfl⟩
  | cons chat rest ih =>
    intro cache
    cases hd : isDirty prev chat with
    | false =>
      obtain ⟨ih1, ih2, ih3, ih4⟩ := ih cache
      refine ⟨?_, ?_, ?_, ?_⟩ <;>
        simp [refreshLoop, hd, List.filter_cons, ih1, ih2, ih3, ih4]
    | true =>
      obtain ⟨ih1, ih2, ih3, ih4⟩ :=
        ih (updateChatCache remote chat.id now cache).2
      cases hok : refreshOkFor remote chat.id with
      | false =>
        refine ⟨?_, ?_, ?_, ?_⟩ <;>
          simp [refreshLoop, hd, List.filter_cons, updateChatCache_fst, hok,
            ih1, ih2, ih3, ih4]
      | true =>
        refine ⟨?_, ?_, ?_, ?_⟩ <;>
          simp [refreshLoop, hd, List.filter_cons, updateChatCache_fst, hok,
            ih1, ih2, ih3, ih4]

theorem periodicSync_running_eq {pages : Nat → Option (List ListedChat)}
    {remote : String → Option MessagesResponse} {uid : String} {now : Nat}
    {s : ServerState} (h : s.sync.isRunning = true) :
    periodicSync pages remote uid now s = ⟨s, none, []⟩ := by
  rw [periodicSync, if_pos h]

theorem periodicSync_state_chatIndex {pages : Nat → Option (List ListedChat)}
    {remote : String → Option MessagesResponse} {uid : String} {now : Nat}
    {s : ServerState} (h : s.sync.isRunning = false) :
    (periodicSync pages remote uid now s).state.chatIndex =
      buildIndex uid (fetchAllChats pages).1 := by
  rw [periodicSync, if_neg (by simp [h])]

theorem periodicSync_state_webhookSeen {pages : Nat → Option (List ListedChat)}
    {remote : String → Option MessagesResponse} {uid : String} {now : Nat}
    {s : ServerState} (h : s.sync.isRunning = false) :
    (periodicSync pages remote uid now s).state.webhookSeen = s.webhookSeen := by
  rw [periodicSync, if_neg (by simp [h])]

theorem periodicSync_report {pages : Nat → Option (List ListedChat)}
    {remote : String → Option MessagesResponse} {uid : String} {now : Nat}
    {s : ServerState} (h : s.sync.isRunning = false) :
    (periodicSync pages remote uid now s).report = some
      { chatsChecked :=
          (refreshLoop s.chatIndex remote now (fetchAllChats pages).1 s.cache).checked
        chatsUpdated :=
          (refreshLoop s.chatIndex remote now (fetchAllChats pages).1 s.cache).updated
        chatsMissed := 0, isRunning := false
        errors :=
          (refreshLoop s.chatIndex remote now (fetchAllChats pages).1 s.cache).errors } := by
  rw [periodicSync, if_neg (by simp [h])]

theorem periodicSync_trace {pages : Nat → Option (List ListedChat)}
    {remote : String → Option MessagesResponse} {uid : String} {now : Nat}
    {s : ServerState} (h : s.sync.isRunning = false) :
    (periodicSync pages remote uid now s).trace =
      (fetchAllChats pages).2 ++
        (refreshLoop s.chatIndex remote now (fetchAllChats pages).1 s.cache).calls := by
  rw [periodicSync, if_neg (by simp [h])]

theorem count_getMessages_not_mem {chats : List ListedChat} {k : String}
    (h : k ∉ chats.map (·.id)) (p : ListedChat → Bool) :
    ((chats.filter p).map fun c => RemoteCall.getMessages c.id).count
      (RemoteCall.getMessages k) = 0 := by
  rw [List.count_eq_zero]
  intro hmem
  obtain ⟨c, hc, he⟩ := List.mem_map.mp hmem
  injection he with he'
  exact h (he' ▸ List.mem_map_of_mem _ (List.mem_of_mem_filter hc))

theorem count_getMessages_filter {prev : Index} {chats : List ListedChat}
    (hnd : (chats.map (·.id)).Nodup) {chat : ListedChat} (hmem : chat ∈ chats) :
    ((chats.filter (isDirty prev)).map fun c => RemoteCall.getMessages c.id).count
        (RemoteCall.getMessages chat.id) = if isDirty prev chat then 1 else 0 := by
  induction chats with
  | nil => cases hmem
  | cons c rest ih =>
    simp only [List.map_cons, List.nodup_cons] at hnd
    rcases List.mem_cons.mp hmem with rfl | hmem'
    · have hzero := count_getMessages_not_mem hnd.1 (isDirty prev)
      cases hdc : isDirty prev chat with
      | true =>
        rw [List.filter_cons_of_pos hdc, List.map_cons, List.count_cons_self, hzero]
        rfl
      | false =>
        rw [List.filter_cons_of_neg (by simp [hdc]), hzero]
        rfl
    · have hne : ¬c.id = chat.id := by
        intro e
        exact hnd.1 (e ▸ List.mem_map_of_mem _ hmem')
      have hrec := ih hnd.2 hmem'
      cases hdc : isDirty prev c with
      | true =>
        rw [List.filter_cons_of_pos hdc, List.map_cons,
          List.count_cons_of_ne (by intro e; injection e with e'; exact hne e'.symm),
          hrec]
      | false =>
        rw [List.filter_cons_of_neg (by simp [hdc]), hrec]

theorem fetchLoop_succ_full {pages : Nat → Option (List ListedChat)}
    {i fuel : Nat} {l : List ListedChat}
    (h0 : pages i = some l) (hlen : l.length = 100) :
    fetchLoop pages i (fuel + 1) =
      (l ++ (fetchLoop pages (i + 1) fuel).1,
        RemoteCall.listChats (i * 100) :: (fetchLoop pages (i + 1) fuel).2) := by
  simp only [fetchLoop, h0]
  rw [if_neg (by omega), if_neg (by omega)]

theorem fetchLoop_fail_after_full (pages : Nat → Option (List ListedChat))
    (ls : Nat → List ListedChat) :
    ∀ k fuel i, k ≤ fuel →
      (∀ j, j < k → pages (i + j) = some (ls (i + j)) ∧ (ls (i + j)).length = 100) →
      pages (i + k) = none →
      fetchLoop pages i (fuel + 1) = (collectFrom ls i k, traceFrom i k) := by
  intro k
  induction k with
  | zero =>
    intro fuel i _ _ hfail
    have hfail' : pages i = none := by simpa using hfail
    rw [fetchLoop, hfail']
    rfl
  | succ k ih =>
    intro fuel i hk hfull hfail
    obtain ⟨fuel', rfl⟩ : ∃ f, fuel = f + 1 := ⟨fuel - 1, by omega⟩
    obtain ⟨h0, hlen0⟩ := hfull 0 (Nat.succ_pos k)
    have h0' : pages i = some (ls i) := by simpa using h0
    have hlen0' : (ls i).length = 100 := by simpa using hlen0
    have hrest := ih fuel' (i + 1) (by omega)
      (fun j hj => by
        have h := hfull (j + 1) (by omega)
        have e : i + (j + 1) = i + 1 + j := by omega
        rwa [e] at h)
      (by
        have e : i + (k + 1) = i + 1 + k := by omega
        rwa [e] at hfail)
    rw [fetchLoop_succ_full h0' hlen0', hrest]
    rfl

theorem traceFrom_mem_last : ∀ k i, RemoteCall.listChats ((i + k) * 100) ∈ traceFrom i k := by
  intro k
  induction k with
  | zero =>
    intro i
    exact List.mem_singleton.mpr rfl
  | succ k ih =>
    intro i
    have h := ih (i + 1)
    have e : i + 1 + k = i + (k + 1) := by omega
    rw [e] at h
    exact List.mem_cons_of_mem _ h

/-! ### Claim theorems -/

/-- **C1.** During a sweep, a conversation is refreshed iff it is dirty, and
dirtiness depends only on `last_message_id`: a listed conversation whose fresh
`lastMsgId` equals the previous index entry's gets no refresh call; one with no
previous entry or a differing id gets exactly one refresh call in the sweep. -/
theorem sweep_refresh_iff_dirty
    (pages : Nat → Option (List ListedChat)) (remote : String → Option MessagesResponse)
    (uid : String) (now : Nat) (s : ServerState) (chat : ListedChat)
    (hrun : s.sync.isRunning = false)
    (hmem : chat ∈ (fetchAllChats pages).1)
    (hnd : ((fetchAllChats pages).1.map (·.id)).Nodup) :
    (periodicSync pages remote uid now s).trace.count
        (RemoteCall.getMessages chat.id) =
      match s.chatIndex chat.id with
      | none => 1
      | some prev => if prev.lastMsgId = lastMsgIdOf chat then 0 else 1 := by
  obtain ⟨_, _, _, h4⟩ :=
    refreshLoop_spec s.chatIndex remote now (fetchAllChats pages).1 s.cache
  rw [periodicSync_trace hrun, List.count_append, h4,
    count_getMessages_filter hnd hmem]
  have hlist : ((fetchAllChats pages).2.count (RemoteCall.getMessages chat.id)) = 0 :=
    fetchLoop_count_getMessages pages chat.id 11 0
  rw [hlist, Nat.zero_add]
  unfold isDirty
  cases hidx : s.chatIndex chat.id with
  | none => rfl
  | some prev =>
    by_cases he : prev.lastMsgId = lastMsgIdOf chat
    · simp [he]
    · simp [he]

/-- Witness for C1 at a concrete one-chat listing with an empty previous
index: the dirty chat receives exactly one refresh call. -/
theorem sweep_refresh_iff_dirty_witness :
    (periodicSync pagesW (fun _ => none) "204620380" 0 stateW).trace.count
      (RemoteCall.getMessages "cW") = 1 := by
  have h := sweep_refresh_iff_dirty pagesW (fun _ => none) "204620380" 0 stateW
    chatW rfl (by decide) (by decide)
  exact h

/-- **C2.** At the end of every sweep that completes its listing phase, the
Summary Index equals exactly the summaries freshly built from that sweep's
listing: every listed conversation has a freshly built entry, every absent
conversation is dropped, and nothing is merged from the previous index (the
result is the same for any two prior states). -/
theorem sweep_index_wholesale
    (pages : Nat → Option (List ListedChat)) (remote : String → Option MessagesResponse)
    (uid : String) (now : Nat) (s s' : ServerState)
    (h : s.sync.isRunning = false) (h' : s'.sync.isRunning = false) :
    (periodicSync pages remote uid now s).state.chatIndex =
        buildIndex uid (fetchAllChats pages).1
    ∧ (∀ chat ∈ (fetchAllChats pages).1, ((fetchAllChats pages).1.map (·.id)).Nodup →
        (periodicSync pages remote uid now s).state.chatIndex chat.id =
          some (buildSummary uid chat))
    ∧ (∀ k, k ∉ (fetchAllChats pages).1.map (·.id) →
        (periodicSync pages remote uid now s).state.chatIndex k = none)
    ∧ (periodicSync pages remote uid now s).state.chatIndex =
        (periodicSync pages remote uid now s').state.chatIndex := by
  refine ⟨periodicSync_state_chatIndex h, ?_, ?_, ?_⟩
  · intro chat hmem hnd
    rw [periodicSync_state_chatIndex h]
    exact buildIndex_mem_nodup hnd hmem
  · intro k hk
    rw [periodicSync_state_chatIndex h]
    exact buildIndex_not_mem hk
  · rw [periodicSync_state_chatIndex h, periodicSync_state_chatIndex h']

/-- Witness for C2 at a concrete one-chat listing: the listed chat gets a
fresh entry, an absent id is dropped, and two different prior indices yield
the same final index. -/
theorem sweep_index_wholesale_witness :
    (periodicSync pagesW (fun _ => none) "204620380" 0 stateW).state.chatIndex "cW"
      = some (buildSummary "204620380" chatW)
    ∧ (periodicSync pagesW (fun _ => none) "204620380" 0 stateW).state.chatIndex "absent"
      = none
    ∧ (periodicSync pagesW (fun _ => none) "204620380" 0 stateW).state.chatIndex
      = (periodicSync pagesW (fun _ => none) "204620380" 0 stateW2).state.chatIndex := by
  obtain ⟨_, h2, h3, h4⟩ := sweep_index_wholesale pagesW (fun _ => none) "204620380" 0
    stateW stateW2 rfl rfl
  exact ⟨h2 chatW (by decide) (by decide), h3 "absent" (by decide), h4⟩

/-- **C4.** `RunSweep` is single-flight: while a sweep is in flight
(`isRunning` set), a new invocation performs no remote calls (empty trace),
mutates nothing (state returned unchanged), and returns immediately with the
distinguished no-report outcome in place of a sweep report. -/
theorem runSweep_single_flight
    (pages : Nat → Option (List ListedChat)) (remote : String → Option MessagesResponse)
    (uid : String) (now : Nat) (s : ServerState)
    (h : s.sync.isRunning = true) :
    periodicSync pages remote uid now s = ⟨s, none, []⟩ :=
  periodicSync_running_eq h

/-- Witness for C4 at a concrete running state. -/
theorem runSweep_single_flight_witness :
    periodicSync pagesW (fun _ => none) "204620380" 0 stateR = ⟨stateR, none, []⟩ :=
  runSweep_single_flight pagesW (fun _ => none) "204620380" 0 stateR rfl

/-- **C5.** Per-conversation refresh failures are isolated within a sweep:
every dirty conversation of the listing receives its refresh call regardless
of the outcomes for the others, and the sweep report's error count equals
exactly the number of refresh calls that returned failure (its updated count
the number that succeeded). -/
theorem refresh_failures_isolated
    (pages : Nat → Option (List ListedChat)) (remote : String → Option MessagesResponse)
    (uid : String) (now : Nat) (s : ServerState)
    (h : s.sync.isRunning = false) :
    (∀ chat ∈ (fetchAllChats pages).1, isDirty s.chatIndex chat = true →
        RemoteCall.getMessages chat.id ∈ (periodicSync pages remote uid now s).trace)
    ∧ (periodicSync pages remote uid now s).report = some
        { chatsChecked := (fetchAllChats pages).1.length
          chatsUpdated := ((fetchAllChats pages).1.filter fun c =>
            isDirty s.chatIndex c && refreshOkFor remote c.id).length
          chatsMissed := 0, isRunning := false
          errors := ((fetchAllChats pages).1.filter fun c =>
            isDirty s.chatIndex c && !refreshOkFor remote c.id).length } := by
  obtain ⟨h1, h2, h3, h4⟩ :=
    refreshLoop_spec s.chatIndex remote now (fetchAllChats pages).1 s.cache
  constructor
  · intro chat hmem hdirty
    rw [periodicSync_trace h]
    refine List.mem_append_right _ ?_
    rw [h4]
    exact List.mem_map_of_mem _ (List.mem_filter.mpr ⟨hmem, hdirty⟩)
  · rw [periodicSync_report h, h1, h2, h3]

/-- Witness for C5: one dirty chat whose refresh fails — the call is issued
and the report counts exactly one error. -/
theorem refresh_failures_isolated_witness :
    RemoteCall.getMessages "cW"
      ∈ (periodicSync pagesW (fun _ => none) "204620380" 0 stateW).trace
    ∧ (periodicSync pagesW (fun _ => none) "204620380" 0 stateW).report
      = some ⟨1, 0, 0, false, 1⟩ := by
  obtain ⟨h1, h2⟩ := refresh_failures_isolated pagesW (fun _ => none) "204620380" 0
    stateW rfl
  refine ⟨h1 chatW (by decide) (by decide), ?_⟩
  rw [h2]
  decide

/-- **C6 (counterexample).** The claim says a failed listing page "is counted
as a sweep-level error in the sweep report".  Here the second page's fetch
fails (`pagesC6 1 = none`, after the call at offset 100 was issued), nothing
is dirty and no refresh fails, yet the sweep report's error count is 0: the
listing failure is not counted. -/
theorem listing_failure_not_counted_counterexample :
    pagesC6 1 = none
    ∧ RemoteCall.listChats 100
        ∈ (periodicSync pagesC6 (fun _ => none) "204620380" 0 stateC6).trace
    ∧ (periodicSync pagesC6 (fun _ => none) "204620380" 0 stateC6).report
        = some ⟨100, 0, 0, false, 0⟩ := by
  refine ⟨rfl, ?_, ?_⟩ <;> decide

/-- **C6 (amended).** When the fetch of a listing page fails during a sweep —
at any position `k` the pagination can reach, i.e. after `k` full pages of 100
with `k ≤ 10` — the remaining pagination is aborted right after the failing
call (the call trace is exactly the calls for pages `0..k`), the conversations
from the pages fetched so far are used for the rest of the sweep (index build,
dirty detection and the report's counts); the failure is, however, not
reflected in the sweep report's error count, which counts only
per-conversation refresh failures. -/
theorem listing_failure_partial_sweep
    (pages : Nat → Option (List ListedChat)) (remote : String → Option MessagesResponse)
    (uid : String) (now : Nat) (s : ServerState)
    (ls : Nat → List ListedChat) (k : Nat) (hk : k ≤ 10)
    (hfull : ∀ j, j < k → pages j = some (ls j) ∧ (ls j).length = 100)
    (hfail : pages k = none)
    (hrun : s.sync.isRunning = false) :
    (fetchAllChats pages).1 = collectFrom ls 0 k
    ∧ (fetchAllChats pages).2 = traceFrom 0 k
    ∧ RemoteCall.listChats (k * 100) ∈ (fetchAllChats pages).2
    ∧ (periodicSync pages remote uid now s).state.chatIndex =
        buildIndex uid (collectFrom ls 0 k)
    ∧ (periodicSync pages remote uid now s).report = some
        { chatsChecked := (collectFrom ls 0 k).length
          chatsUpdated := ((collectFrom ls 0 k).filter fun c =>
            isDirty s.chatIndex c && refreshOkFor remote c.id).length
          chatsMissed := 0, isRunning := false
          errors := ((collectFrom ls 0 k).filter fun c =>
            isDirty s.chatIndex c && !refreshOkFor remote c.id).length } := by
  have hfull' : ∀ j, j < k →
      pages (0 + j) = some (ls (0 + j)) ∧ (ls (0 + j)).length = 100 := by
    intro j hj
    simpa using hfull j hj
  have hfail' : pages (0 + k) = none := by simpa using hfail
  have hfetch : fetchAllChats pages = (collectFrom ls 0 k, traceFrom 0 k) :=
    fetchLoop_fail_after_full pages ls k 10 0 hk hfull' hfail'
  obtain ⟨h1', h2', h3', _⟩ :=
    refreshLoop_spec s.chatIndex remote now (fetchAllChats pages).1 s.cache
  refine ⟨by rw [hfetch], by rw [hfetch], ?_, ?_, ?_⟩
  · rw [hfetch]
    simpa using traceFrom_mem_last k 0
  · rw [periodicSync_state_chatIndex hrun, hfetch]
  · rw [periodicSync_report hrun, h1', h2', h3', hfetch]

/-- Witness for C6 (amended): the concrete listing with one full page and a
failing second page, exercising every hypothesis. -/
theorem listing_failure_partial_sweep_witness :
    (fetchAllChats pagesC6).1 = collectFrom (fun _ => List.replicate 100 chatC6) 0 1
    ∧ RemoteCall.listChats 100 ∈ (fetchAllChats pagesC6).2 := by
  have h := listing_failure_partial_sweep pagesC6 (fun _ => none) "204620380" 0 stateC6
    (fun _ => List.replicate 100 chatC6) 1 (by omega)
    (fun j hj => by
      have hj0 : j = 0 := by omega
      subst hj0
      exact ⟨by decide, by decide⟩)
    (by decide) rfl
  exact ⟨h.1, h.2.2.1⟩

/-- **C3 (counterexample).** The claim says a response with zero messages
makes `RefreshConversation` return `false`.  The code's falsiness test
`!data.messages` does not fire on an empty array: with `messages: []` the
refresh returns `true` (the cache is still left unchanged, because
`saveChatMessages` returns early on an empty list). -/
theorem zero_messages_refresh_returns_true :
    updateChatCache (fun _ => some ⟨some []⟩) "chat1" 0 cacheEmpty
      = (true, cacheEmpty) := rfl

/-- **C3 (amended).** `RefreshConversation(id)` returns `false` and leaves the
cached conversation unchanged when the remote response is missing or lacks a
`messages` field; when the response carries an empty message list it still
leaves the cache unchanged but returns `true`; and for a non-empty message
list it returns `true` having written the fetched messages through to the
cache store. -/
theorem updateChatCache_result_spec
    (remote : String → Option MessagesResponse) (chatId : String) (now : Nat)
    (cache : Cache) :
    (remote chatId = none → updateChatCache remote chatId now cache = (false, cache))
    ∧ (∀ d, remote chatId = some d → d.messages = none →
        updateChatCache remote chatId now cache = (false, cache))
    ∧ (∀ d, remote chatId = some d → d.messages = some [] →
        updateChatCache remote chatId now cache = (true, cache))
    ∧ (∀ d msgs, remote chatId = some d → d.messages = some msgs → msgs ≠ [] →
        updateChatCache remote chatId now cache =
          (true, saveChatMessages chatId msgs now cache)
        ∧ (saveChatMessages chatId msgs now cache).json (safeName chatId) =
            some ⟨chatId, msgs, now⟩) := by
  refine ⟨?_, ?_, ?_, ?_⟩
  · intro h
    simp [updateChatCache, h]
  · intro d hd hm
    simp [updateChatCache, hd, hm]
  · intro d hd hm
    simp [updateChatCache, hd, hm, saveChatMessages]
  · intro d msgs hd hm hne
    refine ⟨by simp [updateChatCache, hd, hm], ?_⟩
    rw [saveChatMessages, if_neg (by simpa [List.length_eq_zero] using hne)]
    simp

/-- Witness for C3 (amended): a transport failure returns `false` without
touching the cache; a successful two-message fetch returns `true` and the
blob is readable at the encoded key. -/
theorem updateChatCache_result_spec_witness :
    updateChatCache (fun _ => none) "chat1" 0 cacheEmpty = (false, cacheEmpty)
    ∧ updateChatCache (fun _ => some ⟨some [msgA, msgB]⟩) "chat1" 0 cacheEmpty
        = (true, saveChatMessages "chat1" [msgA, msgB] 0 cacheEmpty)
    ∧ (saveChatMessages "chat1" [msgA, msgB] 0 cacheEmpty).json (safeName "chat1")
        = some ⟨"chat1", [msgA, msgB], 0⟩ :=
  ⟨(updateChatCache_result_spec (fun _ => none) "chat1" 0 cacheEmpty).1 rfl,
    ((updateChatCache_result_spec (fun _ => some ⟨some [msgA, msgB]⟩) "chat1" 0
        cacheEmpty).2.2.2 ⟨some [msgA, msgB]⟩ [msgA, msgB] rfl rfl (by decide)).1,
    ((updateChatCache_result_spec (fun _ => some ⟨some [msgA, msgB]⟩) "chat1" 0
        cacheEmpty).2.2.2 ⟨some [msgA, msgB]⟩ [msgA, msgB] rfl rfl (by decide)).2⟩

/-- **C7 (counterexample).** The filesystem-safe encoding is not injective:
the distinct ids `a/b` and `a%2Fb` encode to the same name, so it is not
reversible on all ids either. -/
theorem safeName_collision_counterexample :
    safeName "a/b" = safeName "a%2Fb" ∧ "a/b" ≠ "a%2Fb" := by decide

/-- **C7 (amended).** The encoding is idempotent on every id; on ids that do
not already contain the escape sequence `%2F` it is injective and decoding
recovers the original id exactly — in particular the slash-carrying id
`u2i/55-abc` round-trips unchanged. -/
theorem safeName_encoding_properties :
    (∀ s : String, safeName (safeName s) = safeName s)
    ∧ (∀ s : String, containsEnc s.data = false → decodeName (safeName s) = s)
    ∧ (∀ a b : String, containsEnc a.data = false → containsEnc b.data = false →
        safeName a = safeName b → a = b)
    ∧ decodeName (safeName "u2i/55-abc") = "u2i/55-abc" :=
  ⟨safeName_idem_str,
    fun _ h => decodeName_safeName h,
    fun _ _ ha hb h => safeName_inj_of_no_enc ha hb h,
    decodeName_safeName (by decide)⟩

/-- Witness for C7 (amended) at the spec's example id and a second id. -/
theorem safeName_encoding_witness :
    containsEnc "u2i/55-abc".data = false
    ∧ decodeName (safeName "u2i/55-abc") = "u2i/55-abc"
    ∧ safeName (safeName "u2i/55-abc") = safeName "u2i/55-abc"
    ∧ ("u2i/55-abc" : String) ≠ "u2i/55-abd" :=
  ⟨by decide,
    safeName_encoding_properties.2.1 "u2i/55-abc" (by decide),
    safeName_encoding_properties.1 "u2i/55-abc",
    fun h => by simp at h⟩

/-- **C8 (counterexample).** The claim says the read-back message sequence is
sorted ascending by `created`.  The JSON blob stores the messages exactly as
passed; writing `[msgB, msgA]` (timestamps 5, 3) reads back in that same
descending order. -/
theorem cache_readback_not_sorted_counterexample :
    readCachedChat "c1" (saveChatMessages "c1" [msgB, msgA] 7 cacheEmpty)
      = some ⟨"c1", [msgB, msgA], 7⟩
    ∧ isAscendingByCreated [msgB, msgA] = false := by
  refine ⟨?_, ?_⟩ <;> decide

/-- **C8 (amended).** For every non-empty message list, writing a cached
conversation and reading it back through the cache read path yields the
identical ordered sequence exactly as passed at write time (not re-sorted);
the ascending-by-`created` ordering applies only to the human-readable TXT
transcript, which renders a sorted permutation of the same messages. -/
theorem cache_roundtrip_write_order (chatId : String) (messages : List Message)
    (now : Nat) (cache : Cache) (h : messages ≠ []) :
    readCachedChat chatId (saveChatMessages chatId messages now cache) =
      some ⟨chatId, messages, now⟩
    ∧ (saveChatMessages chatId messages now cache).txt (safeName chatId) =
        some (messages.mergeSort msgLe)
    ∧ (messages.mergeSort msgLe).Pairwise (fun a b => msgLe a b = true)
    ∧ (messages.mergeSort msgLe).Perm messages := by
  have hlen : ¬messages.length = 0 := by
    simpa [List.length_eq_zero] using h
  have htrans : ∀ a b c : Message, msgLe a b → msgLe b c → msgLe a c := by
    intro a b c h1 h2
    simp only [msgLe, decide_eq_true_eq] at *
    omega
  have htotal : ∀ a b : Message, msgLe a b || msgLe b a := by
    intro a b
    simp only [msgLe, Bool.or_eq_true, decide_eq_true_eq]
    omega
  refine ⟨?_, ?_, ?_, List.mergeSort_perm messages msgLe⟩
  · rw [readCachedChat, saveChatMessages, if_neg hlen]
    simp
  · rw [saveChatMessages, if_neg hlen]
    simp
  · exact List.sorted_mergeSort htrans htotal messages

/-- Witness for C8 (amended) at a concrete two-message write. -/
theorem cache_roundtrip_write_order_witness :
    readCachedChat "w8" (saveChatMessages "w8" [msgB, msgA] 1 cacheEmpty)
      = some ⟨"w8", [msgB, msgA], 1⟩ :=
  (cache_roundtrip_write_order "w8" [msgB, msgA] 1 cacheEmpty (by decide)).1

/-- **C9.** The webhook endpoint acknowledges first — the 200 response is the
head of the handler's event trace, before any payload processing — and a
payload that is malformed JSON or lacks a (truthy) conversation id gets the
same success response while the whole server state (summary index,
webhook-seen map, conversation cache) is left unchanged. -/
theorem webhook_ack_first_bad_payload_noop (parsed : Option WebhookValue)
    (now : Nat) (s : ServerState) :
    ((handleWebhook parsed now s).2.head? = some (WebhookEvent.respond 200 true))
    ∧ (chatIdTruthy parsed = none →
        handleWebhook parsed now s = (s, [WebhookEvent.respond 200 true])) := by
  constructor
  · cases parsed with
    | none => rfl
    | some v =>
      cases hc : v.chat_id with
      | none => simp [handleWebhook, hc]
      | some cid =>
        by_cases h0 : cid = "" <;> simp [handleWebhook, hc, h0]
  · intro h
    cases parsed with
    | none => rfl
    | some v =>
      cases hc : v.chat_id with
      | none => simp [handleWebhook, hc]
      | some cid =>
        by_cases h0 : cid = ""
        · simp [handleWebhook, hc, h0]
        · rw [chatIdTruthy] at h
          simp [hc, h0] at h

/-- Witness for C9 on a malformed body: state unchanged, same 200 response. -/
theorem webhook_ack_witness :
    handleWebhook none 0 stateW = (stateW, [WebhookEvent.respond 200 true]) :=
  (webhook_ack_first_bad_payload_noop none 0 stateW).2 rfl

/-- **C10.** The webhook-seen marker map does not influence staleness
detection: two server states differing only in the webhook-seen map yield the
same dirtiness verdicts, the same remote-call trace, the same sweep report
and the same final index; conversely, processing a webhook never mutates the
summary index. -/
theorem webhook_seen_isolated (pages : Nat → Option (List ListedChat))
    (remote : String → Option MessagesResponse) (uid : String) (now now2 : Nat)
    (s : ServerState) (seen : String → Option SeenMark)
    (parsed : Option WebhookValue) :
    (∀ chat, isDirty ({ s with webhookSeen := seen } : ServerState).chatIndex chat
        = isDirty s.chatIndex chat)
    ∧ (periodicSync pages remote uid now { s with webhookSeen := seen }).trace
        = (periodicSync pages remote uid now s).trace
    ∧ (periodicSync pages remote uid now { s with webhookSeen := seen }).report
        = (periodicSync pages remote uid now s).report
    ∧ (periodicSync pages remote uid now { s with webhookSeen := seen }).state.chatIndex
        = (periodicSync pages remote uid now s).state.chatIndex
    ∧ (handleWebhook parsed now2 s).1.chatIndex = s.chatIndex := by
  have hwh : (handleWebhook parsed now2 s).1.chatIndex = s.chatIndex := by
    cases parsed with
    | none => rfl
    | some v =>
      cases hc : v.chat_id with
      | none => simp [handleWebhook, hc]
      | some cid =>
        by_cases h0 : cid = "" <;> simp [handleWebhook, hc, h0]
  refine ⟨fun _ => rfl, ?_, ?_, ?_, hwh⟩ <;>
  · cases hr : s.sync.isRunning with
    | true =>
      rw [periodicSync_running_eq (s := s) hr,
        periodicSync_running_eq (s := { s with webhookSeen := seen }) hr]
    | false =>
      rw [periodicSync, if_neg (by simp [hr]), periodicSync, if_neg (by simp [hr])]

end AvitoWebhook
